import Mathlib

/-
  Verification of the agent orchestration core of the aicli repository
  (src/agent/agent.rs), shallowly embedded in Lean 4.

  Strings are modelled as Lean `String` / `List Char`; `serde_json::Value`
  is modelled by the inductive `Json` below, with objects kept as
  key-sorted association lists (serde_json's default `BTreeMap` map
  representation, duplicate keys resolved last-wins).  Rust byte indices
  computed by `str::find` / `str::rfind` on ASCII needles are modelled as
  character indices, which select the same occurrences and the same
  substrings.  Fallible Rust functions return `Except`/`Option`; the one
  place the Rust code can panic (an out-of-order string slice) is modelled
  by a dedicated `RustOutcome.panicked` constructor.
-/

namespace Aicli

/-! ### Character and string utilities -/

/-- The double-quote character. -/
def quoteChar : Char := Char.ofNat 34

/-- The backslash character. -/
def backslashChar : Char := Char.ofNat 92

/-- The opening curly brace character. -/
def braceOpen : Char := Char.ofNat 123

/-- The closing curly brace character. -/
def braceClose : Char := Char.ofNat 125

/-- The opening square bracket character. -/
def bracketOpen : Char := Char.ofNat 91

/-- The closing square bracket character. -/
def bracketClose : Char := Char.ofNat 93

/-- Rust `char::is_whitespace` (the Unicode White_Space property). -/
def rustIsWs (c : Char) : Bool :=
  [9, 10, 11, 12, 13, 32, 133, 160, 0x1680, 0x2000, 0x2001, 0x2002, 0x2003,
   0x2004, 0x2005, 0x2006, 0x2007, 0x2008, 0x2009, 0x200A, 0x2028, 0x2029,
   0x202F, 0x205F, 0x3000].contains c.toNat

/-- Rust `str::trim` on a character list: drop leading and trailing whitespace. -/
def rustTrimL (l : List Char) : List Char :=
  ((l.dropWhile rustIsWs).reverse.dropWhile rustIsWs).reverse

/-- Rust `str::trim` on a string. -/
def rustTrim (s : String) : String := String.mk (rustTrimL s.toList)

/-- Rust `char::to_ascii_lowercase`. -/
def asciiLowerChar (c : Char) : Char :=
  if 65 ≤ c.toNat ∧ c.toNat ≤ 90 then Char.ofNat (c.toNat + 32) else c

/-- Rust `str::to_ascii_lowercase`; also used for `str::to_lowercase` on the
`action` field, whose interesting values are all ASCII. -/
def asciiLowerStr (s : String) : String := String.mk (s.toList.map asciiLowerChar)

/-- Rust `str::eq_ignore_ascii_case`. -/
def eqIgnoreAsciiCase (a b : String) : Bool := asciiLowerStr a = asciiLowerStr b

/-- Index of the first occurrence of a character (Rust `str::find(char)`). -/
def findIdxOfChar (c : Char) : List Char → Option Nat
  | [] => none
  | x :: xs => if x = c then some 0 else (findIdxOfChar c xs).map (· + 1)

/-- Index of the last occurrence of a character (Rust `str::rfind(char)`). -/
def rfindIdxOfChar (c : Char) (l : List Char) : Option Nat :=
  (findIdxOfChar c l.reverse).map fun i => l.length - 1 - i

/-- Index of the first occurrence of a sublist (Rust `str::find(&str)`). -/
def subIdx : List Char → List Char → Option Nat
  | hay, pat =>
    if pat.isPrefixOf hay then some 0
    else
      match hay with
      | [] => none
      | _ :: t => (subIdx t pat).map (· + 1)

/-- Rust `str::contains(&str)`. -/
def containsSub (hay pat : String) : Bool := (subIdx hay.toList pat.toList).isSome

/-! ### JSON values (serde_json::Value) -/

/-- Model of `serde_json::Value`.  Objects are association lists kept sorted
by key with unique keys (serde_json's default `BTreeMap`); numbers keep their
source lexeme, which no code under verification inspects numerically. -/
inductive Json where
  | null
  | bool (b : Bool)
  | num (lit : String)
  | str (s : String)
  | arr (items : List Json)
  | obj (fields : List (String × Json))

/-- Lexicographic comparison of character lists by code point; agrees with
the byte-lexicographic `Ord` on Rust strings (UTF-8 preserves code-point
order). -/
def charListLt : List Char → List Char → Bool
  | [], [] => false
  | [], _ :: _ => true
  | _ :: _, [] => false
  | a :: as, b :: bs =>
    if a.toNat < b.toNat then true
    else if b.toNat < a.toNat then false
    else charListLt as bs

/-- Lexicographic string comparison (Rust `String` `Ord`). -/
def strLt (a b : String) : Bool := charListLt a.toList b.toList

/-- Insert a field into a key-sorted association list, overwriting an equal
key (serde_json `BTreeMap::insert`: duplicate keys are resolved last-wins). -/
def insertField (k : String) (v : Json) : List (String × Json) → List (String × Json)
  | [] => [(k, v)]
  | (k2, v2) :: rest =>
    if k = k2 then (k, v) :: rest
    else if strLt k k2 then (k, v) :: (k2, v2) :: rest
    else (k2, v2) :: insertField k v rest

/-- Association-list lookup (serde_json `Map::get`). -/
def lookupField : List (String × Json) → String → Option Json
  | [], _ => none
  | (k, v) :: rest, key => if k = key then some v else lookupField rest key

/-- Models `Value::get(key)`: field lookup on objects, `None` otherwise. -/
def Json.get : Json → String → Option Json
  | .obj fields, key => lookupField fields key
  | _, _ => none

/-- Models `Value::as_str`. -/
def Json.asStr : Json → Option String
  | .str s => some s
  | _ => none

/-- Models `Value::is_null`. -/
def Json.isNull : Json → Bool
  | .null => true
  | _ => false

/-- Models `Value::as_object` (just the fields). -/
def Json.getObj : Json → Option (List (String × Json))
  | .obj fields => some fields
  | _ => none

/-! ### JSON serialization (serde_json `to_string`) -/

/-- Lowercase hex digit. -/
def hexDigitChar (n : Nat) : Char :=
  if n < 10 then Char.ofNat (48 + n) else Char.ofNat (87 + n)

/-- Escape one character inside a serialized JSON string (serde_json rules). -/
def escapeChar (c : Char) : List Char :=
  if c = quoteChar then [backslashChar, quoteChar]
  else if c = backslashChar then [backslashChar, backslashChar]
  else if c.toNat = 8 then [backslashChar, 'b']
  else if c.toNat = 9 then [backslashChar, 't']
  else if c.toNat = 10 then [backslashChar, 'n']
  else if c.toNat = 12 then [backslashChar, 'f']
  else if c.toNat = 13 then [backslashChar, 'r']
  else if c.toNat < 32 then
    [backslashChar, 'u', '0', '0', hexDigitChar (c.toNat / 16), hexDigitChar (c.toNat % 16)]
  else [c]

/-- Serialize a JSON string literal with quotes and escapes. -/
def renderString (s : String) : String :=
  String.mk ([quoteChar] ++ (s.toList.map escapeChar).flatten ++ [quoteChar])

mutual

/-- Compact serialization of a JSON value (serde_json `Value::to_string`). -/
def Json.render : Json → String
  | .null => "null"
  | .bool true => "true"
  | .bool false => "false"
  | .num lit => lit
  | .str s => renderString s
  | .arr items => "[" ++ String.intercalate "," (Json.renderList items) ++ "]"
  | .obj fields => "\x7b" ++ String.intercalate "," (Json.renderFields fields) ++ "\x7d"

/-- Serialize each element of a JSON array. -/
def Json.renderList : List Json → List String
  | [] => []
  | v :: rest => Json.render v :: Json.renderList rest

/-- Serialize each field of a JSON object. -/
def Json.renderFields : List (String × Json) → List String
  | [] => []
  | (k, v) :: rest => (renderString k ++ ":" ++ Json.render v) :: Json.renderFields rest

end

/-! ### JSON parsing (serde_json `from_str`) -/

/-- JSON structural whitespace (space, tab, line feed, carriage return). -/
def isJsonWs (c : Char) : Bool :=
  c.toNat = 32 ∨ c.toNat = 9 ∨ c.toNat = 10 ∨ c.toNat = 13

/-- Skip JSON whitespace. -/
def skipWs (cs : List Char) : List Char := cs.dropWhile isJsonWs

/-- Value of a hex digit. -/
def hexVal (c : Char) : Option Nat :=
  if 48 ≤ c.toNat ∧ c.toNat ≤ 57 then some (c.toNat - 48)
  else if 97 ≤ c.toNat ∧ c.toNat ≤ 102 then some (c.toNat - 87)
  else if 65 ≤ c.toNat ∧ c.toNat ≤ 70 then some (c.toNat - 55)
  else none

/-- Parse the body of a JSON string after the opening quote, producing the
decoded string and the rest of the input after the closing quote. -/
def parseStringChars (acc : List Char) (cs : List Char) : Option (String × List Char) :=
  match cs with
  | [] => none
  | c :: rest =>
    if c = quoteChar then some (String.mk acc.reverse, rest)
    else if c = backslashChar then
      match rest with
      | [] => none
      | e :: rest2 =>
        if e = quoteChar then parseStringChars (quoteChar :: acc) rest2
        else if e = backslashChar then parseStringChars (backslashChar :: acc) rest2
        else if e = '/' then parseStringChars ('/' :: acc) rest2
        else if e = 'b' then parseStringChars (Char.ofNat 8 :: acc) rest2
        else if e = 'f' then parseStringChars (Char.ofNat 12 :: acc) rest2
        else if e = 'n' then parseStringChars (Char.ofNat 10 :: acc) rest2
        else if e = 'r' then parseStringChars (Char.ofNat 13 :: acc) rest2
        else if e = 't' then parseStringChars (Char.ofNat 9 :: acc) rest2
        else if e = 'u' then
          match rest2 with
          | a :: b :: c2 :: d :: rest3 =>
            match hexVal a, hexVal b, hexVal c2, hexVal d with
            | some x, some y, some z, some w =>
              let n := ((x * 16 + y) * 16 + z) * 16 + w
              if 0xD800 ≤ n ∧ n ≤ 0xDBFF then
                match rest3 with
                | u1 :: u2 :: a2 :: b2 :: c3 :: d2 :: rest4 =>
                  if u1 = backslashChar ∧ u2 = 'u' then
                    match hexVal a2, hexVal b2, hexVal c3, hexVal d2 with
                    | some x2, some y2, some z2, some w2 =>
                      let m := ((x2 * 16 + y2) * 16 + z2) * 16 + w2
                      if 0xDC00 ≤ m ∧ m ≤ 0xDFFF then
                        parseStringChars
                          (Char.ofNat (0x10000 + (n - 0xD800) * 0x400 + (m - 0xDC00)) :: acc) rest4
                      else none
                    | _, _, _, _ => none
                  else none
                | _ => none
              else if 0xDC00 ≤ n ∧ n ≤ 0xDFFF then none
              else parseStringChars (Char.ofNat n :: acc) rest3
            | _, _, _, _ => none
          | _ => none
        else none
    else if c.toNat < 32 then none
    else parseStringChars (c :: acc) rest

/-- Lex the fraction part of a JSON number (empty if absent). -/
def lexFrac (cs : List Char) : Option (List Char × List Char) :=
  match cs with
  | [] => some ([], [])
  | c :: rest =>
    if c = '.' then
      match rest.takeWhile Char.isDigit with
      | [] => none
      | ds => some ('.' :: ds, rest.dropWhile Char.isDigit)
    else some ([], cs)

/-- Lex the exponent part of a JSON number (empty if absent). -/
def lexExp (cs : List Char) : Option (List Char × List Char) :=
  match cs with
  | [] => some ([], [])
  | c :: rest =>
    if c = 'e' ∨ c = 'E' then
      let (sgn, rest2) :=
        match rest with
        | [] => (([] : List Char), rest)
        | s :: r => if s = '+' ∨ s = '-' then ([s], r) else ([], rest)
      match rest2.takeWhile Char.isDigit with
      | [] => none
      | ds => some (c :: (sgn ++ ds), rest2.dropWhile Char.isDigit)
    else some ([], cs)

/-- Lex a complete JSON number, returning its lexeme and the rest. -/
def lexNumber (cs : List Char) : Option (List Char × List Char) :=
  let (sign, cs1) :=
    match cs with
    | [] => (([] : List Char), cs)
    | c :: rest => if c = '-' then ([c], rest) else ([], cs)
  match cs1 with
  | [] => none
  | c :: rest =>
    let intAndRest : Option (List Char × List Char) :=
      if c = '0' then some (['0'], rest)
      else if c.isDigit then some (c :: rest.takeWhile Char.isDigit, rest.dropWhile Char.isDigit)
      else none
    match intAndRest with
    | none => none
    | some (ip, rest2) =>
      match lexFrac rest2 with
      | none => none
      | some (fp, rest3) =>
        match lexExp rest3 with
        | none => none
        | some (ep, rest4) => some (sign ++ ip ++ fp ++ ep, rest4)

/-- Expect a literal tail such as `rue` of `true`. -/
def expectLit (lit : List Char) (cs : List Char) (v : Json) : Option (Json × List Char) :=
  if lit.isPrefixOf cs then some (v, cs.drop lit.length) else none

mutual

/-- Parse one JSON value (fuelled recursive descent over the grammar
accepted by serde_json `from_str`). -/
def parseValue : Nat → List Char → Option (Json × List Char)
  | 0, _ => none
  | fuel + 1, cs =>
    match skipWs cs with
    | [] => none
    | c :: rest =>
      if c = braceOpen then parseObjBody fuel rest
      else if c = bracketOpen then parseArrBody fuel rest
      else if c = quoteChar then
        match parseStringChars [] rest with
        | some (s, rest2) => some (.str s, rest2)
        | none => none
      else if c = 't' then expectLit ['r', 'u', 'e'] rest (.bool true)
      else if c = 'f' then expectLit ['a', 'l', 's', 'e'] rest (.bool false)
      else if c = 'n' then expectLit ['u', 'l', 'l'] rest .null
      else if c = '-' ∨ c.isDigit then
        match lexNumber (c :: rest) with
        | some (lit, rest2) => some (.num (String.mk lit), rest2)
        | none => none
      else none

/-- Parse an object body after the opening brace. -/
def parseObjBody : Nat → List Char → Option (Json × List Char)
  | 0, _ => none
  | fuel + 1, cs =>
    match skipWs cs with
    | [] => none
    | c :: rest =>
      if c = braceClose then some (.obj [], rest)
      else parseMembers fuel [] (c :: rest)

/-- Parse the members of a non-empty object. -/
def parseMembers : Nat → List (String × Json) → List Char → Option (Json × List Char)
  | 0, _, _ => none
  | fuel + 1, acc, cs =>
    match skipWs cs with
    | [] => none
    | c :: rest =>
      if c = quoteChar then
        match parseStringChars [] rest with
        | none => none
        | some (k, rest2) =>
          match skipWs rest2 with
          | [] => none
          | c2 :: rest3 =>
            if c2 = ':' then
              match parseValue fuel rest3 with
              | none => none
              | some (v, rest4) =>
                let acc2 := insertField k v acc
                match skipWs rest4 with
                | [] => none
                | c3 :: rest5 =>
                  if c3 = ',' then parseMembers fuel acc2 rest5
                  else if c3 = braceClose then some (.obj acc2, rest5)
                  else none
            else none
      else none

/-- Parse an array body after the opening bracket. -/
def parseArrBody : Nat → List Char → Option (Json × List Char)
  | 0, _ => none
  | fuel + 1, cs =>
    match skipWs cs with
    | [] => none
    | c :: rest =>
      if c = bracketClose then some (.arr [], rest)
      else parseElems fuel [] (c :: rest)

/-- Parse the elements of a non-empty array (accumulated in reverse). -/
def parseElems : Nat → List Json → List Char → Option (Json × List Char)
  | 0, _, _ => none
  | fuel + 1, acc, cs =>
    match parseValue fuel cs with
    | none => none
    | some (v, rest) =>
      match skipWs rest with
      | [] => none
      | c :: rest2 =>
        if c = ',' then parseElems fuel (v :: acc) rest2
        else if c = bracketClose then some (.arr (v :: acc).reverse, rest2)
        else none

end

/-- serde_json `from_str::<Value>`: parse a complete JSON document; trailing
non-whitespace input is an error.  The fuel `3 * length + 3` strictly bounds
the recursion depth, which consumes at least one character per three calls. -/
def jsonParse (cs : List Char) : Option Json :=
  match parseValue (3 * cs.length + 3) cs with
  | some (v, rest) => if (skipWs rest).isEmpty then some v else none
  | none => none

/-! ### Directive parser (src/agent/agent.rs: Decision, DecisionEnvelope,
parse_json_object, parse_decision) -/

/-- The `Decision` enum of agent.rs. -/
inductive Decision where
  | Retrieve (query : String)
  | ToolCall (name : String) (args : Json)
  | PromptCall (name : String) (args : Json)
  | ResourceRead (uri : String)
  | FinalAnswer (answer : String)

/-- Result of a Rust function that returns `Result<A, String>` but may also
panic (used for the decision parser, whose inclusive string slice
`raw[start..=end]` panics when `start > end`). -/
inductive RustOutcome (α : Type) where
  | ok (a : α)
  | err (e : String)
  | panicked

/-- The `DecisionEnvelope` struct of agent.rs: the serde target with
`action` required and all other fields defaulted. -/
structure DecisionEnvelope where
  action : String
  name : Option String
  arguments : Json
  answer : Option String
  uri : Option String

/-- serde deserialization of an `Option<String>` field from a JSON field
that may be absent, null, or a string. -/
def decodeOptString : Option Json → Option (Option String)
  | none => some none
  | some .null => some none
  | some (.str s) => some (some s)
  | some _ => none

/-- serde_json `from_value::<DecisionEnvelope>`: requires an object with a
string `action`; `name`/`answer`/`uri` optional strings; `arguments` any
value defaulting to null. -/
def decodeEnvelope (v : Json) : Option DecisionEnvelope :=
  match v with
  | .obj _ =>
    match (v.get "action").bind Json.asStr with
    | none => none
    | some act =>
      match decodeOptString (v.get "name"), decodeOptString (v.get "answer"),
            decodeOptString (v.get "uri") with
      | some name, some answer, some uri =>
        some ⟨act, name, ((v.get "arguments").getD .null), answer, uri⟩
      | _, _, _ => none
  | _ => none

/-- Models `parse_json_object` of agent.rs: try the whole text as JSON; otherwise
slice from the first opening brace to the last closing brace (inclusive) and
parse the slice.  The Rust slice `raw[start..=end]` panics when the last
closing brace precedes the first opening brace. -/
def parse_json_object (raw : List Char) : RustOutcome Json :=
  match jsonParse raw with
  | some v => .ok v
  | none =>
    match findIdxOfChar braceOpen raw with
    | none => .err "No JSON object found in model output"
    | some s =>
      match rfindIdxOfChar braceClose raw with
      | none => .err "No JSON object found in model output"
      | some e =>
        if e < s then .panicked
        else
          match jsonParse ((raw.drop s).take (e + 1 - s)) with
          | some v => .ok v
          | none => .err "Failed to parse JSON decision"

/-- Is an optional string present with non-whitespace content?  Models the
recurring Rust pattern `opt.filter(|s| !s.trim().is_empty())`. -/
def filterNonEmpty (o : Option String) : Option String :=
  match o with
  | some s => if (rustTrimL s.toList).isEmpty then none else some s
  | none => none

/-- Fetch `arguments.<key>` as a non-empty-after-trim string. -/
def strField (args : Json) (key : String) : Option String :=
  filterNonEmpty ((args.get key).bind Json.asStr)

/-- The dispatch on the parsed envelope inside `parse_decision` of agent.rs
(the `match action.as_str()` block). -/
def decisionFromEnvelope (env : DecisionEnvelope) : Except String Decision :=
  let action := asciiLowerStr (rustTrim env.action)
  if action = "retrieve" then
    match (env.arguments.get "query").bind Json.asStr with
    | some query => .ok (.Retrieve query)
    | none => .error "retrieve action requires arguments.query"
  else if action = "tool" then
    match filterNonEmpty env.name with
    | some name =>
      .ok (.ToolCall name (if env.arguments.isNull then .obj [] else env.arguments))
    | none => .error "tool action requires name"
  else if action = "prompt" then
    match filterNonEmpty env.name with
    | some name =>
      .ok (.PromptCall name (if env.arguments.isNull then .obj [] else env.arguments))
    | none => .error "prompt action requires name"
  else if action = "resource" then
    let cand :=
      (env.uri.orElse fun _ => (env.arguments.get "uri").bind Json.asStr).orElse
        fun _ => env.name
    match filterNonEmpty cand with
    | some uri => .ok (.ResourceRead uri)
    | none => .error "resource action requires uri"
  else if action = "final" then
    let cand :=
      ((((((filterNonEmpty env.answer).orElse
            fun _ => filterNonEmpty env.arguments.asStr).orElse
            fun _ => strField env.arguments "answer").orElse
            fun _ => strField env.arguments "final").orElse
            fun _ => strField env.arguments "text").orElse
            fun _ => strField env.arguments "response").orElse
        fun _ => filterNonEmpty env.name
    match cand with
    | some answer => .ok (.FinalAnswer answer)
    | none => .error "final action requires answer"
  else .error ("unknown action: " ++ action)

/-- Models `parse_decision` of agent.rs: extract a JSON object from the raw model
output, deserialize the envelope, and dispatch on the action. -/
def parse_decision (raw : List Char) : RustOutcome Decision :=
  match parse_json_object raw with
  | .panicked => .panicked
  | .err e => .err e
  | .ok data =>
    match decodeEnvelope data with
    | none => .err "invalid decision envelope"
    | some env =>
      match decisionFromEnvelope env with
      | .ok d => .ok d
      | .error e => .err e

/-! ### Argument normalizer (agent.rs: normalize_tool_args and helpers) -/

/-- Models `take_after_case_insensitive` of agent.rs: the text following the first
case-insensitive occurrence of the needle. -/
def take_after_ci (text pat : List Char) : Option (List Char) :=
  match subIdx (text.map asciiLowerChar) (pat.map asciiLowerChar) with
  | none => none
  | some i => some (text.drop (i + pat.length))

/-- Drop every leading and trailing occurrence of one character
(Rust `str::trim_matches(char)`). -/
def trimMatchesChar (c : Char) (l : List Char) : List Char :=
  ((l.dropWhile (· = c)).reverse.dropWhile (· = c)).reverse

/-- Models `clean_city_candidate` of agent.rs: trim whitespace and quote characters,
truncate at the first comma, semicolon, or newline, and trim again. -/
def clean_city_candidate (raw : List Char) : List Char :=
  let out := trimMatchesChar (Char.ofNat 39) (trimMatchesChar quoteChar (rustTrimL raw))
  let out := (((out.takeWhile (· ≠ ',')).takeWhile (· ≠ ';')).takeWhile (· ≠ Char.ofNat 10))
  trimMatchesChar (Char.ofNat 39) (trimMatchesChar quoteChar (rustTrimL out))

/-- The pattern loop of `infer_city_from_text` of agent.rs. -/
def inferCityLoop (text : List Char) : List (List Char) → Option String
  | [] => none
  | pat :: rest =>
    match take_after_ci text pat with
    | some raw =>
      let city := clean_city_candidate raw
      if city.isEmpty then inferCityLoop text rest else some (String.mk city)
    | none => inferCityLoop text rest

/-- Models `infer_city_from_text` of agent.rs: scan the text for fixed cues and
clean the following fragment. -/
def infer_city_from_text (text : String) : Option String :=
  inferCityLoop text.toList
    ["city=".toList, "city:".toList, " in ".toList, " for ".toList]

/-- The direct-key loop of `extract_city_from_args` of agent.rs. -/
def firstDirectKey (fields : List (String × Json)) : List String → Option String
  | [] => none
  | k :: ks =>
    match (lookupField fields k).bind Json.asStr with
    | some v =>
      let city := rustTrimL v.toList
      if city.isEmpty then firstDirectKey fields ks else some (String.mk city)
    | none => firstDirectKey fields ks

/-- The substring-key loop of `extract_city_from_args` of agent.rs. -/
def cityKeyScan : List (String × Json) → Option String
  | [] => none
  | (k, v) :: rest =>
    if containsSub (asciiLowerStr k) "city" then
      match v.asStr with
      | some s =>
        let city := rustTrimL s.toList
        if city.isEmpty then cityKeyScan rest else some (String.mk city)
      | none => cityKeyScan rest
    else cityKeyScan rest

/-- Models `extract_city_from_args` of agent.rs: a bare non-empty string argument,
else a fixed list of likely keys, else any key containing "city". -/
def extract_city_from_args (args : Json) : Option String :=
  let strCase : Option String :=
    match args.asStr with
    | some s =>
      let city := rustTrimL s.toList
      if city.isEmpty then none else some (String.mk city)
    | none => none
  match strCase with
  | some c => some c
  | none =>
    match args.getObj with
    | none => none
    | some fields =>
      match firstDirectKey fields ["city", "location", "place", "town", "query"] with
      | some c => some c
      | none => cityKeyScan fields

/-! ### Conversation state (agent.rs: AgentState) -/

/-- The `Message` struct of build_prompt.rs. -/
structure Message where
  role : String
  content : String

/-- The `AgentState` struct of agent.rs. -/
structure AgentState where
  conversation : List Message
  current_step : Nat
  max_steps : Nat
  context_log : List String

/-- Models `AgentState::new`. -/
def AgentState.new (max_steps : Nat) : AgentState := ⟨[], 0, max_steps, []⟩

/-- Models `AgentState::append_user`. -/
def AgentState.append_user (st : AgentState) (text : String) : AgentState :=
  { st with conversation := st.conversation ++ [⟨"user", text⟩] }

/-- Models `AgentState::append_system`. -/
def AgentState.append_system (st : AgentState) (text : String) : AgentState :=
  { st with conversation := st.conversation ++ [⟨"system", text⟩] }

/-- Models `AgentState::append_context`: records the text in both the context log
and the conversation (as a system turn). -/
def AgentState.append_context (st : AgentState) (text : String) : AgentState :=
  { st with
    context_log := st.context_log ++ [text]
    conversation := st.conversation ++ [⟨"system", text⟩] }

/-- Models `AgentState::append_tool`: records the text in both the context log and
the conversation (as a tool turn). -/
def AgentState.append_tool (st : AgentState) (text : String) : AgentState :=
  { st with
    context_log := st.context_log ++ [text]
    conversation := st.conversation ++ [⟨"tool", text⟩] }

/-- Models `AgentState::context_text`. -/
def AgentState.context_text (st : AgentState) : String :=
  if st.context_log.isEmpty then "(no context found)"
  else String.intercalate "\n\n" st.context_log

/-- The `state.current_step += 1` statement of the loop. -/
def AgentState.bump (st : AgentState) : AgentState :=
  { st with current_step := st.current_step + 1 }

/-- Models `latest_user_query` of agent.rs: content of the most recent user turn. -/
def latest_user_query (st : AgentState) : Option String :=
  (st.conversation.reverse.find? fun m => m.role == "user").map Message.content

/-- Models `is_rag_only_query` of agent.rs: trigger phrases for retrieval-only
mode, matched case-insensitively. -/
def is_rag_only_query (question : String) : Bool :=
  let q := asciiLowerStr question
  containsSub q "use rag" || containsSub q "rag only" || containsSub q "only rag" ||
  containsSub q "do not use mcp" || containsSub q "don't use mcp" || containsSub q "without mcp"

/-- Models `is_rag_only_state` of agent.rs. -/
def is_rag_only_state (st : AgentState) : Bool :=
  ((latest_user_query st).map is_rag_only_query).getD false

/-- Models `normalize_tool_args` of agent.rs: for the recognized weather tool,
replace the arguments with a single-field city object when any extraction
strategy produces a candidate; otherwise (and for all other tools) pass the
arguments through unchanged. -/
def normalize_tool_args (name : String) (args : Json) (st : AgentState) : Json :=
  if !eqIgnoreAsciiCase name "fetch-weather" then args
  else
    match (extract_city_from_args args).orElse
        fun _ => (latest_user_query st).bind fun q => infer_city_from_text q with
    | some city => .obj [("city", .str city)]
    | none => args

/-! ### Collaborators and the orchestration loop (agent.rs: run_agent) -/

/-- The collaborator boundary of the loop: the structured completion call
(`generate_json`, indexed by call order), the plain completion call
(`generate_answer`), the composite retrieval pipeline (`run_retrieve`:
embed_query + retrieve_top + format_context_from_hits), and the MCP client
(`is_enabled`, `call_tool`, `get_prompt`, `read_resource`). -/
structure Env where
  genJson : Nat → Except String String
  genAnswer : List Message → Except String String
  retrieve : String → Except String String
  mcpEnabled : Bool
  callTool : String → Json → Except String Json
  getPrompt : String → Json → Except String Json
  readResource : String → Except String Json

/-- The `Config` fields consumed by the agent core (config.rs). -/
structure Config where
  system_prompt : String
  hybrid_system_prompt : String
  agent_max_steps : Nat

/-- One observable outbound call of the loop. -/
inductive Event where
  | completionCall
  | answerCall
  | retrieveCall (query : String)
  | toolInvoke (name : String) (args : Json)
  | promptInvoke (name : String) (args : Json)
  | resourceInvoke (uri : String)

/-- Is the event an invocation of the external capability (MCP) client? -/
def Event.isCapabilityCall : Event → Bool
  | .toolInvoke _ _ => true
  | .promptInvoke _ _ => true
  | .resourceInvoke _ => true
  | _ => false

/-- Is the event a structured-mode completion call (one parse/dispatch
iteration of the loop)? -/
def Event.isCompletion : Event → Bool
  | .completionCall => true
  | _ => false

/-- The corrective system turn appended when MCP is unavailable and the
model requested a tool or prompt call. -/
def mcpUnavailableMsg : String :=
  "MCP is unavailable in this session. Choose only: retrieve or final."

/-- Result of dispatching one parsed directive: either the terminal answer,
or the successor state (step already incremented) with the outbound calls
performed. -/
inductive StepOut where
  | final (answer : String)
  | next (st : AgentState) (events : List Event)

/-- The retrieval substitute performed instead of a tool/prompt/resource
call while retrieval-only mode is active (the block repeated verbatim in
the three corresponding arms of `run_agent`). -/
def ragOnlyFallback (env : Env) (st : AgentState) (fq : String) : StepOut :=
  match env.retrieve fq with
  | .ok ctx =>
    .next ((st.append_context
      ("RAG retrieve fallback (RAG-only mode) for query: " ++ fq ++ "\n" ++ ctx)).bump)
      [.retrieveCall fq]
  | .error err =>
    .next ((st.append_tool ("RAG retrieve fallback error (RAG-only mode): " ++ err)).bump)
      [.retrieveCall fq]

/-- The dispatch on a parsed `Decision` inside the loop body of `run_agent`
(agent.rs lines 122-242), including the retrieval fallbacks, the
MCP-unavailable system turns, and the step increment of every non-final
branch. -/
def dispatch (env : Env) (st : AgentState) : Decision → StepOut
  | .Retrieve query =>
    match env.retrieve query with
    | .ok ctx =>
      .next ((st.append_context ("RAG retrieve for query: " ++ query ++ "\n" ++ ctx)).bump)
        [.retrieveCall query]
    | .error err =>
      .next ((st.append_tool ("RAG retrieve error: " ++ err)).bump) [.retrieveCall query]
  | .ToolCall name args =>
    if is_rag_only_state st then
      ragOnlyFallback env st ((latest_user_query st).getD name)
    else if !env.mcpEnabled then
      .next ((st.append_system mcpUnavailableMsg).bump) []
    else
      let normalized := normalize_tool_args name args st
      let result :=
        match env.callTool name normalized with
        | .ok v => v.render
        | .error e => "Tool call failed for " ++ name ++ ": " ++ e
      .next ((st.append_tool ("Tool result [" ++ name ++ "]: " ++ result)).bump)
        [.toolInvoke name normalized]
  | .PromptCall name args =>
    if is_rag_only_state st then
      ragOnlyFallback env st ((latest_user_query st).getD name)
    else if !env.mcpEnabled then
      .next ((st.append_system mcpUnavailableMsg).bump) []
    else
      let result :=
        match env.getPrompt name args with
        | .ok v => v.render
        | .error e => "Prompt fetch failed for " ++ name ++ ": " ++ e
      .next ((st.append_tool ("Prompt result [" ++ name ++ "]: " ++ result)).bump)
        [.promptInvoke name args]
  | .ResourceRead uri =>
    if is_rag_only_state st then
      ragOnlyFallback env st ((latest_user_query st).getD uri)
    else if !env.mcpEnabled then
      let fq := (latest_user_query st).getD uri
      match env.retrieve fq with
      | .ok ctx =>
        .next ((st.append_context
          ("RAG retrieve fallback (MCP disabled) for query: " ++ fq ++ "\n" ++ ctx)).bump)
          [.retrieveCall fq]
      | .error err =>
        .next ((st.append_tool ("RAG retrieve fallback error (MCP disabled): " ++ err)).bump)
          [.retrieveCall fq]
    else
      match env.readResource uri with
      | .ok value =>
        .next ((st.append_tool ("Resource result [" ++ uri ++ "]: " ++ value.render)).bump)
          [.resourceInvoke uri]
      | .error err =>
        let st1 := st.append_tool ("Resource read failed for " ++ uri ++ ": " ++ err)
        let fq := (latest_user_query st1).getD uri
        match env.retrieve fq with
        | .ok ctx =>
          .next ((st1.append_context
            ("RAG retrieve fallback (resource read failed) for query: " ++ fq ++ "\n" ++ ctx)).bump)
            [.resourceInvoke uri, .retrieveCall fq]
        | .error retrieveErr =>
          .next ((st1.append_tool
            ("RAG retrieve fallback error (resource read failed): " ++ retrieveErr)).bump)
            [.resourceInvoke uri, .retrieveCall fq]
  | .FinalAnswer answer => .final answer

/-- Models `force_final_answer` of agent.rs: the degraded single-shot completion
over the accumulated context; an all-whitespace answer is a failure. -/
def force_final_answer (env : Env) (cfg : Config) (st : AgentState) : Except String String :=
  let question := (latest_user_query st).getD ""
  let context := st.context_text
  let messages : List Message :=
    [⟨"system", cfg.system_prompt⟩,
     ⟨"user",
      "Use the context below to answer the question.\n\nContext:\n" ++ context ++
        "\n\nQuestion: " ++ question ++
        "\n\nReturn only a direct final answer in plain text. Do not return JSON."⟩]
  match env.genAnswer messages with
  | .error e => .error e
  | .ok answer =>
    if (rustTrimL answer.toList).isEmpty then
      .error "Model returned an empty fallback final answer"
    else .ok answer

/-- Terminal outcome of a session: a normal answer, a fatal failure string,
or (faithful to the Rust) a panic escaping the decision parser. -/
inductive RunResult where
  | answered (answer : String)
  | failed (err : String)
  | panicked

/-- Outcome, final state, and outbound-call trace of a (partial) run. -/
structure RunOut where
  result : RunResult
  state : AgentState
  events : List Event

/-- The exhaustion branch after the loop of `run_agent` (agent.rs lines
245-250): attempt the forced final answer, wrapping its failure in a string
naming the step limit. -/
def runForced (env : Env) (cfg : Config) (st : AgentState) : RunOut :=
  match force_final_answer env cfg st with
  | .ok a => ⟨.answered a, st, [.answerCall]⟩
  | .error e =>
    ⟨.failed ("Max steps exceeded (limit: " ++ toString st.max_steps ++
        ") before final answer; fallback generation failed: " ++ e),
      st, [.answerCall]⟩

/-- The `while` loop of `run_agent`, with explicit fuel bounding the number
of remaining iterations (the loop itself re-checks `current_step <
max_steps` every iteration, so any fuel at least `max_steps - current_step`
yields the Rust behaviour).  A failing structured completion call aborts the
run with its error (the `?` operator on `generate_json`). -/
def run_agent_fuel : Nat → Env → Config → Nat → AgentState → RunOut
  | 0, env, cfg, _, st => runForced env cfg st
  | fuel + 1, env, cfg, callIdx, st =>
    if st.current_step < st.max_steps then
      match env.genJson callIdx with
      | .error e => ⟨.failed e, st, [.completionCall]⟩
      | .ok raw =>
        match parse_decision raw.toList with
        | .panicked => ⟨.panicked, st, [.completionCall]⟩
        | .err perr =>
          let st2 := (st.append_system ("Invalid controller JSON output: " ++ perr ++
            ". Return valid JSON with one action and required fields.")).bump
          let out := run_agent_fuel fuel env cfg (callIdx + 1) st2
          ⟨out.result, out.state, .completionCall :: out.events⟩
        | .ok d =>
          match dispatch env st d with
          | .final ans => ⟨.answered ans, st, [.completionCall]⟩
          | .next st2 evts =>
            let out := run_agent_fuel fuel env cfg (callIdx + 1) st2
            ⟨out.result, out.state, .completionCall :: (evts ++ out.events)⟩
    else runForced env cfg st

/-- Models `run_agent` of agent.rs. -/
def run_agent (env : Env) (cfg : Config) (st : AgentState) : RunOut :=
  run_agent_fuel (st.max_steps - st.current_step) env cfg 0 st

/-! ### Session setup (agent.rs: build_hybrid_system_prompt,
answer_query_hybrid) -/

/-- The capability lists discovered before the loop (mcp.rs). -/
structure McpCapabilities where
  tools : List String
  prompts : List String
  resources : List String
  diagnostics : List String

/-- Models `list_or_none` of agent.rs. -/
def list_or_none (items : List String) : String :=
  if items.isEmpty then "- (none)"
  else String.intercalate "\n" (items.map fun it => "- " ++ it)

/-- Models `build_hybrid_system_prompt` of agent.rs. -/
def build_hybrid_system_prompt (cfg : Config) (caps : McpCapabilities)
    (mcp_enabled : Bool) : String :=
  let prompt := cfg.hybrid_system_prompt ++
    "\n\nAvailable Tools:\n" ++ list_or_none caps.tools ++
    "\n\nAvailable Prompts:\n" ++ list_or_none caps.prompts ++
    "\n\nAvailable Resources:\n" ++ list_or_none caps.resources
  let prompt :=
    if caps.diagnostics.isEmpty then prompt
    else prompt ++ "\n\nMCP Diagnostics:\n" ++ String.intercalate "\n" caps.diagnostics
  if !mcp_enabled then
    prompt ++
      "\n\nMCP is currently unavailable. Do not choose tool/prompt/resource. Use retrieve and final only."
  else if caps.tools.isEmpty && caps.prompts.isEmpty && caps.resources.isEmpty then
    prompt ++
      "\n\nMCP is configured but capability discovery returned no tools/prompts/resources. Prefer retrieve/final unless user explicitly asks for MCP, and inspect MCP diagnostics."
  else prompt

/-- Models `answer_query_hybrid` of agent.rs: seed the conversation with the
capability-aware system prompt, the optional RAG-only notice, and the user
question, then run the loop.  Capability discovery results are a parameter
(they come from the external MCP client). -/
def answer_query_hybrid (env : Env) (cfg : Config) (caps : McpCapabilities)
    (question : String) : RunOut :=
  let st := AgentState.new (max cfg.agent_max_steps 1)
  let st := st.append_system (build_hybrid_system_prompt cfg caps env.mcpEnabled)
  let st :=
    if is_rag_only_query question then
      st.append_system
        "User requested RAG-only mode for this query. Do not use MCP tool/prompt/resource actions. Use retrieve and final only."
    else st
  let st := st.append_user question
  run_agent env cfg st

/-! ### Session invariants -/

/-- Every entry of the context log is the content of some recorded tool or
system conversation turn. -/
def logAbsorbed (st : AgentState) : Prop :=
  ∀ t ∈ st.context_log,
    ∃ m ∈ st.conversation, m.content = t ∧ (m.role = "tool" ∨ m.role = "system")

/-- The state is pinned in retrieval-only mode: its most recent user turn
exists and carries a retrieval-only trigger phrase. -/
def ragLocked (st : AgentState) : Prop :=
  ∃ q, latest_user_query st = some q ∧ is_rag_only_query q = true

/-! ### Concrete fixtures for witnesses and counterexamples -/

/-- A config instance for concrete runs. -/
def cfg1 : Config := ⟨"sys prompt", "hybrid prompt", 1⟩

/-- Empty capability discovery result. -/
def caps0 : McpCapabilities := ⟨[], [], [], []⟩

/-- An environment with no MCP transport configured and failing
collaborators. -/
def envDisabled : Env :=
  ⟨fun _ => .error "unused", fun _ => .error "unused", fun _ => .error "unused",
   false, fun _ _ => .error "unused", fun _ _ => .error "unused", fun _ => .error "unused"⟩

/-- An environment whose MCP transport is up but whose resource reads fail
and whose retrieval succeeds. -/
def envResourceDown : Env :=
  ⟨fun _ => .error "unused", fun _ => .error "unused", fun _ => .ok "ctx-block",
   true, fun _ _ => .error "unused", fun _ _ => .error "unused", fun _ => .error "denied"⟩

/-- An environment whose structured completion call fails immediately. -/
def envGenDown : Env :=
  ⟨fun _ => .error "upstream down", fun _ => .ok "x", fun _ => .error "r",
   false, fun _ _ => .error "unused", fun _ _ => .error "unused", fun _ => .error "unused"⟩

/-- An environment that always requests a retrieval that fails, with a
succeeding forced-final completion. -/
def envRetrieveBoom : Env :=
  ⟨fun _ => .ok "\x7b\"action\":\"retrieve\",\"arguments\":\x7b\"query\":\"x\"\x7d\x7d",
   fun _ => .ok "ans", fun _ => .error "boom",
   false, fun _ _ => .error "unused", fun _ _ => .error "unused", fun _ => .error "unused"⟩

/-- An environment that always requests a failing retrieval and whose
forced-final completion also fails. -/
def envAllDown : Env :=
  ⟨fun _ => .ok "\x7b\"action\":\"retrieve\",\"arguments\":\x7b\"query\":\"x\"\x7d\x7d",
   fun _ => .error "llm down", fun _ => .error "boom",
   false, fun _ _ => .error "unused", fun _ _ => .error "unused", fun _ => .error "unused"⟩

/-- An environment that immediately emits a final-answer directive. -/
def envFinal : Env :=
  ⟨fun _ => .ok "\x7b\"action\":\"final\",\"answer\":\"done\"\x7d",
   fun _ => .error "unused", fun _ => .error "unused",
   false, fun _ _ => .error "unused", fun _ _ => .error "unused", fun _ => .error "unused"⟩

/-! ### Lemmas: turn appends and the most recent user turn -/

theorem latest_user_append_tool (st : AgentState) (t : String) :
    latest_user_query (st.append_tool t) = latest_user_query st := by
  simp [latest_user_query, AgentState.append_tool, List.find?]

theorem latest_user_append_system (st : AgentState) (t : String) :
    latest_user_query (st.append_system t) = latest_user_query st := by
  simp [latest_user_query, AgentState.append_system, List.find?]

theorem latest_user_append_context (st : AgentState) (t : String) :
    latest_user_query (st.append_context t) = latest_user_query st := by
  simp [latest_user_query, AgentState.append_context, List.find?]

theorem latest_user_append_user (st : AgentState) (t : String) :
    latest_user_query (st.append_user t) = some t := by
  simp [latest_user_query, AgentState.append_user, List.find?]

theorem latest_user_bump (st : AgentState) :
    latest_user_query st.bump = latest_user_query st := rfl

/-! ### Lemmas: context-log absorption -/

theorem logAbsorbed_append_tool (st : AgentState) (t : String) (h : logAbsorbed st) :
    logAbsorbed (st.append_tool t) := by
  intro x hx
  simp only [AgentState.append_tool] at hx ⊢
  rcases List.mem_append.mp hx with hold | hnew
  · obtain ⟨m, hm, hc, hr⟩ := h x hold
    exact ⟨m, List.mem_append_left _ hm, hc, hr⟩
  · exact ⟨⟨"tool", t⟩, List.mem_append_right _ (by simp), (List.mem_singleton.mp hnew).symm,
      Or.inl rfl⟩

theorem logAbsorbed_append_context (st : AgentState) (t : String) (h : logAbsorbed st) :
    logAbsorbed (st.append_context t) := by
  intro x hx
  simp only [AgentState.append_context] at hx ⊢
  rcases List.mem_append.mp hx with hold | hnew
  · obtain ⟨m, hm, hc, hr⟩ := h x hold
    exact ⟨m, List.mem_append_left _ hm, hc, hr⟩
  · exact ⟨⟨"system", t⟩, List.mem_append_right _ (by simp), (List.mem_singleton.mp hnew).symm,
      Or.inr rfl⟩

theorem logAbsorbed_append_system (st : AgentState) (t : String) (h : logAbsorbed st) :
    logAbsorbed (st.append_system t) := by
  intro x hx
  simp only [AgentState.append_system] at hx ⊢
  obtain ⟨m, hm, hc, hr⟩ := h x hx
  exact ⟨m, List.mem_append_left _ hm, hc, hr⟩

theorem logAbsorbed_append_user (st : AgentState) (t : String) (h : logAbsorbed st) :
    logAbsorbed (st.append_user t) := by
  intro x hx
  simp only [AgentState.append_user] at hx ⊢
  obtain ⟨m, hm, hc, hr⟩ := h x hx
  exact ⟨m, List.mem_append_left _ hm, hc, hr⟩

theorem logAbsorbed_bump (st : AgentState) (h : logAbsorbed st) : logAbsorbed st.bump := h

/-! ### Lemmas: facts about one dispatch step -/

theorem ragOnlyFallback_facts (env : Env) (st : AgentState) (fq : String)
    (st2 : AgentState) (evts : List Event)
    (h : ragOnlyFallback env st fq = .next st2 evts) :
    latest_user_query st2 = latest_user_query st ∧
    st2.current_step = st.current_step + 1 ∧
    st2.max_steps = st.max_steps ∧
    evts = [.retrieveCall fq] ∧
    (logAbsorbed st → logAbsorbed st2) := by
  unfold ragOnlyFallback at h
  cases hr : env.retrieve fq with
  | ok ctx =>
    rw [hr] at h; cases h
    exact ⟨latest_user_append_context st _, rfl, rfl, rfl,
      fun ha => logAbsorbed_bump _ (logAbsorbed_append_context st _ ha)⟩
  | error err =>
    rw [hr] at h; cases h
    exact ⟨latest_user_append_tool st _, rfl, rfl, rfl,
      fun ha => logAbsorbed_bump _ (logAbsorbed_append_tool st _ ha)⟩

theorem dispatch_next_facts (env : Env) (st : AgentState) (d : Decision)
    (st2 : AgentState) (evts : List Event)
    (h : dispatch env st d = .next st2 evts) :
    latest_user_query st2 = latest_user_query st ∧
    st2.current_step = st.current_step + 1 ∧
    st2.max_steps = st.max_steps ∧
    (∀ ev ∈ evts, ev.isCompletion = false) ∧
    (logAbsorbed st → logAbsorbed st2) ∧
    (is_rag_only_state st = true → ∀ ev ∈ evts, ev.isCapabilityCall = false) := by
  cases d with
  | Retrieve query =>
    simp only [dispatch] at h
    cases hr : env.retrieve query with
    | ok ctx =>
      rw [hr] at h; cases h
      exact ⟨latest_user_append_context st _, rfl, rfl, by simp [Event.isCompletion],
        fun ha => logAbsorbed_bump _ (logAbsorbed_append_context st _ ha),
        fun _ => by simp [Event.isCapabilityCall]⟩
    | error err =>
      rw [hr] at h; cases h
      exact ⟨latest_user_append_tool st _, rfl, rfl, by simp [Event.isCompletion],
        fun ha => logAbsorbed_bump _ (logAbsorbed_append_tool st _ ha),
        fun _ => by simp [Event.isCapabilityCall]⟩
  | ToolCall name args =>
    simp only [dispatch] at h
    by_cases hrag : is_rag_only_state st
    · rw [if_pos hrag] at h
      obtain ⟨h1, h2, h3, h4, h5⟩ := ragOnlyFallback_facts env st _ st2 evts h
      exact ⟨h1, h2, h3, by simp [h4, Event.isCompletion], h5,
        fun _ => by simp [h4, Event.isCapabilityCall]⟩
    · rw [if_neg hrag] at h
      by_cases hmcp : env.mcpEnabled
      · simp only [hmcp, Bool.not_true, Bool.false_eq_true, if_false] at h
        cases h
        exact ⟨latest_user_append_tool st _, rfl, rfl, by simp [Event.isCompletion],
          fun ha => logAbsorbed_bump _ (logAbsorbed_append_tool st _ ha),
          fun hc => by rw [hc] at hrag; exact absurd rfl hrag⟩
      · simp only [Bool.not_eq_true] at hmcp
        simp only [hmcp, Bool.not_false, if_true] at h
        cases h
        exact ⟨latest_user_append_system st _, rfl, rfl, by simp,
          fun ha => logAbsorbed_bump _ (logAbsorbed_append_system st _ ha), fun _ => by simp⟩
  | PromptCall name args =>
    simp only [dispatch] at h
    by_cases hrag : is_rag_only_state st
    · rw [if_pos hrag] at h
      obtain ⟨h1, h2, h3, h4, h5⟩ := ragOnlyFallback_facts env st _ st2 evts h
      exact ⟨h1, h2, h3, by simp [h4, Event.isCompletion], h5,
        fun _ => by simp [h4, Event.isCapabilityCall]⟩
    · rw [if_neg hrag] at h
      by_cases hmcp : env.mcpEnabled
      · simp only [hmcp, Bool.not_true, Bool.false_eq_true, if_false] at h
        cases h
        exact ⟨latest_user_append_tool st _, rfl, rfl, by simp [Event.isCompletion],
          fun ha => logAbsorbed_bump _ (logAbsorbed_append_tool st _ ha),
          fun hc => by rw [hc] at hrag; exact absurd rfl hrag⟩
      · simp only [Bool.not_eq_true] at hmcp
        simp only [hmcp, Bool.not_false, if_true] at h
        cases h
        exact ⟨latest_user_append_system st _, rfl, rfl, by simp,
          fun ha => logAbsorbed_bump _ (logAbsorbed_append_system st _ ha), fun _ => by simp⟩
  | ResourceRead uri =>
    simp only [dispatch] at h
    by_cases hrag : is_rag_only_state st
    · rw [if_pos hrag] at h
      obtain ⟨h1, h2, h3, h4, h5⟩ := ragOnlyFallback_facts env st _ st2 evts h
      exact ⟨h1, h2, h3, by simp [h4, Event.isCompletion], h5,
        fun _ => by simp [h4, Event.isCapabilityCall]⟩
    · rw [if_neg hrag] at h
      by_cases hmcp : env.mcpEnabled
      · simp only [hmcp, Bool.not_true, Bool.false_eq_true, if_false] at h
        split at h
        · cases h
          exact ⟨latest_user_append_tool st _, rfl, rfl, by simp [Event.isCompletion],
            fun ha => logAbsorbed_bump _ (logAbsorbed_append_tool st _ ha),
            fun hc => by rw [hc] at hrag; exact absurd rfl hrag⟩
        · split at h
          · cases h
            refine ⟨?_, rfl, rfl, by simp [Event.isCompletion], ?_,
              fun hc => by rw [hc] at hrag; exact absurd rfl hrag⟩
            · rw [latest_user_bump, latest_user_append_context, latest_user_append_tool]
            · exact fun ha => logAbsorbed_bump _ (logAbsorbed_append_context _ _
                (logAbsorbed_append_tool st _ ha))
          · cases h
            refine ⟨?_, rfl, rfl, by simp [Event.isCompletion], ?_,
              fun hc => by rw [hc] at hrag; exact absurd rfl hrag⟩
            · rw [latest_user_bump, latest_user_append_tool, latest_user_append_tool]
            · exact fun ha => logAbsorbed_bump _ (logAbsorbed_append_tool _ _
                (logAbsorbed_append_tool st _ ha))
      · simp only [Bool.not_eq_true] at hmcp
        simp only [hmcp, Bool.not_false, if_true] at h
        cases hr : env.retrieve ((latest_user_query st).getD uri) with
        | ok ctx =>
          rw [hr] at h; cases h
          exact ⟨latest_user_append_context st _, rfl, rfl, by simp [Event.isCompletion],
            fun ha => logAbsorbed_bump _ (logAbsorbed_append_context st _ ha),
            fun _ => by simp [Event.isCapabilityCall]⟩
        | error rerr =>
          rw [hr] at h; cases h
          exact ⟨latest_user_append_tool st _, rfl, rfl, by simp [Event.isCompletion],
            fun ha => logAbsorbed_bump _ (logAbsorbed_append_tool st _ ha),
            fun _ => by simp [Event.isCapabilityCall]⟩
  | FinalAnswer answer => exact absurd h (by simp [dispatch])

/-! ### Lemmas: whole-run invariants -/

/-- Number of structured completion calls (parse/dispatch iterations) in a
trace. -/
def completionCount : List Event → Nat
  | [] => 0
  | .completionCall :: rest => completionCount rest + 1
  | .answerCall :: rest => completionCount rest
  | .retrieveCall _ :: rest => completionCount rest
  | .toolInvoke _ _ :: rest => completionCount rest
  | .promptInvoke _ _ :: rest => completionCount rest
  | .resourceInvoke _ :: rest => completionCount rest

theorem completionCount_eq_zero (l : List Event)
    (h : ∀ ev ∈ l, ev.isCompletion = false) : completionCount l = 0 := by
  induction l with
  | nil => rfl
  | cons a rest ih =>
    have ha := h a (List.mem_cons_self a rest)
    have hrest := ih fun ev hev => h ev (List.mem_cons_of_mem a hev)
    cases a <;> simp [completionCount, hrest] <;> cases ha

theorem completionCount_append (l1 l2 : List Event) :
    completionCount (l1 ++ l2) = completionCount l1 + completionCount l2 := by
  induction l1 with
  | nil => simp [completionCount]
  | cons a rest ih => cases a <;> simp [completionCount, ih] <;> omega

theorem run_fuel_absorbed (fuel : Nat) (env : Env) (cfg : Config) :
    ∀ (idx : Nat) (st : AgentState), logAbsorbed st →
      logAbsorbed (run_agent_fuel fuel env cfg idx st).state := by
  induction fuel with
  | zero =>
    intro idx st h
    simp only [run_agent_fuel, runForced]
    split <;> exact h
  | succ fuel ih =>
    intro idx st h
    simp only [run_agent_fuel]
    split
    · split
      · exact h
      · split
        · exact h
        · exact ih _ _ (logAbsorbed_bump _ (logAbsorbed_append_system st _ h))
        · split
          · exact h
          · next st2 evts heq =>
            exact ih _ _ ((dispatch_next_facts env st _ st2 evts heq).2.2.2.2.1 h)
    · simp only [runForced]
      split <;> exact h

theorem run_fuel_completion_count (fuel : Nat) (env : Env) (cfg : Config) :
    ∀ (idx : Nat) (st : AgentState),
      completionCount (run_agent_fuel fuel env cfg idx st).events ≤ fuel := by
  induction fuel with
  | zero =>
    intro idx st
    simp only [run_agent_fuel, runForced]
    split <;> exact Nat.le_refl 0
  | succ fuel ih =>
    intro idx st
    simp only [run_agent_fuel]
    split
    · split
      · show completionCount [.completionCall] ≤ fuel + 1
        show 1 ≤ fuel + 1
        omega
      · split
        · show (1 : Nat) ≤ fuel + 1
          omega
        · next perr heq =>
          show completionCount (.completionCall :: _) ≤ fuel + 1
          rw [show ∀ r, completionCount (.completionCall :: r) = completionCount r + 1 from
            fun r => rfl]
          have := ih (idx + 1) ((st.append_system ("Invalid controller JSON output: " ++ perr ++
            ". Return valid JSON with one action and required fields.")).bump)
          omega
        · split
          · show (1 : Nat) ≤ fuel + 1
            omega
          · next st2 evts heq =>
            show completionCount (.completionCall :: (evts ++ _)) ≤ fuel + 1
            rw [show ∀ r, completionCount (.completionCall :: r) = completionCount r + 1 from
              fun r => rfl]
            rw [completionCount_append]
            have h0 : completionCount evts = 0 :=
              completionCount_eq_zero evts (dispatch_next_facts env st _ st2 evts heq).2.2.2.1
            have := ih (idx + 1) st2
            omega
    · simp only [runForced]
      split <;> exact Nat.zero_le _

theorem run_fuel_failed (fuel : Nat) (env : Env) (cfg : Config) :
    ∀ (idx : Nat) (st : AgentState) (s : String),
      (run_agent_fuel fuel env cfg idx st).result = .failed s →
      (∃ i, idx ≤ i ∧ env.genJson i = .error s) ∨
      (∃ stx e, force_final_answer env cfg stx = .error e ∧
        s = "Max steps exceeded (limit: " ++ toString st.max_steps ++
          ") before final answer; fallback generation failed: " ++ e) := by
  induction fuel with
  | zero =>
    intro idx st s h
    simp only [run_agent_fuel, runForced] at h
    split at h
    · cases h
    · next e heq =>
      injection h with h2
      exact Or.inr ⟨st, e, heq, h2.symm⟩
  | succ fuel ih =>
    intro idx st s h
    simp only [run_agent_fuel] at h
    split at h
    · split at h
      · next e heq =>
        injection h with h2
        exact Or.inl ⟨idx, Nat.le_refl idx, h2 ▸ heq⟩
      · split at h
        · cases h
        · next perr heq =>
          rcases ih (idx + 1) _ s h with ⟨i, hi, hg⟩ | ⟨stx, e, hf, hs⟩
          · exact Or.inl ⟨i, by omega, hg⟩
          · exact Or.inr ⟨stx, e, hf, hs⟩
        · split at h
          · cases h
          · next st2 evts heq =>
            rcases ih (idx + 1) st2 s h with ⟨i, hi, hg⟩ | ⟨stx, e, hf, hs⟩
            · exact Or.inl ⟨i, by omega, hg⟩
            · refine Or.inr ⟨stx, e, hf, ?_⟩
              rw [hs, (dispatch_next_facts env st _ st2 evts heq).2.2.1]
    · simp only [runForced] at h
      split at h
      · cases h
      · next e heq =>
        injection h with h2
        exact Or.inr ⟨st, e, heq, h2.symm⟩

theorem ragLocked_is_rag_only (st : AgentState) (h : ragLocked st) :
    is_rag_only_state st = true := by
  obtain ⟨q, hq, hr⟩ := h
  simp [is_rag_only_state, hq, hr]

theorem run_fuel_noncap (fuel : Nat) (env : Env) (cfg : Config) :
    ∀ (idx : Nat) (st : AgentState), ragLocked st →
      ∀ ev ∈ (run_agent_fuel fuel env cfg idx st).events, ev.isCapabilityCall = false := by
  induction fuel with
  | zero =>
    intro idx st _ ev hev
    simp only [run_agent_fuel, runForced] at hev
    split at hev <;> (simp only [List.mem_singleton] at hev; subst hev; rfl)
  | succ fuel ih =>
    intro idx st hlock ev hev
    simp only [run_agent_fuel] at hev
    split at hev
    · split at hev
      · simp only [List.mem_singleton] at hev
        subst hev; rfl
      · split at hev
        · simp only [List.mem_singleton] at hev
          subst hev; rfl
        · next perr heq =>
          rw [show ∀ (o : RunOut) (e : Event),
              (RunOut.mk o.result o.state (e :: o.events)).events = e :: o.events from
              fun _ _ => rfl] at hev
          rw [List.mem_cons] at hev
          rcases hev with rfl | hev
          · rfl
          · refine ih (idx + 1) _ ?_ ev hev
            obtain ⟨q, hq, hr⟩ := hlock
            refine ⟨q, ?_, hr⟩
            rw [latest_user_bump, latest_user_append_system]
            exact hq
        · split at hev
          · simp only [List.mem_singleton] at hev
            subst hev; rfl
          · next st2 evts heq =>
            rw [show ∀ (o : RunOut) (e : Event) (l : List Event),
                (RunOut.mk o.result o.state (e :: (l ++ o.events))).events =
                  e :: (l ++ o.events) from fun _ _ _ => rfl] at hev
            rw [List.mem_cons, List.mem_append] at hev
            obtain ⟨hlat, _, _, _, _, hcap⟩ := dispatch_next_facts env st _ st2 evts heq
            rcases hev with rfl | hev | hev
            · rfl
            · exact hcap (ragLocked_is_rag_only st hlock) ev hev
            · refine ih (idx + 1) st2 ?_ ev hev
              obtain ⟨q, hq, hr⟩ := hlock
              exact ⟨q, by rw [hlat]; exact hq, hr⟩
    · simp only [runForced] at hev
      split at hev <;> (simp only [List.mem_singleton] at hev; subst hev; rfl)

/-! ### Lemmas: locating the embedded JSON object (parse_json_object) -/

theorem findIdxOfChar_append_cons (c : Char) (l1 t : List Char) (h : c ∉ l1) :
    findIdxOfChar c (l1 ++ c :: t) = some l1.length := by
  induction l1 with
  | nil => simp [findIdxOfChar]
  | cons a l ih =>
    simp only [List.mem_cons, not_or] at h
    have hne : ¬ a = c := fun hac => h.1 hac.symm
    have ihh := ih h.2
    simp [findIdxOfChar, hne, ihh]

theorem rfindIdxOfChar_located (c : Char) (l1 t : List Char) (h : c ∉ t) :
    rfindIdxOfChar c (l1 ++ c :: t) = some l1.length := by
  unfold rfindIdxOfChar
  have hrev : (l1 ++ c :: t).reverse = t.reverse ++ c :: l1.reverse := by
    simp [List.reverse_append]
  rw [hrev, findIdxOfChar_append_cons c t.reverse l1.reverse (by simpa using h)]
  simp [List.length_append]

theorem parse_json_object_embedded (pre mid suf : List Char) (v : Json)
    (hpre : braceOpen ∉ pre) (hsuf : braceClose ∉ suf)
    (hlast : (braceOpen :: mid).getLast? = some braceClose)
    (hobj : jsonParse (braceOpen :: mid) = some v)
    (hfull : jsonParse (pre ++ (braceOpen :: mid) ++ suf) = none) :
    parse_json_object (pre ++ (braceOpen :: mid) ++ suf) = .ok v := by
  obtain ⟨ini, hini⟩ := List.getLast?_eq_some_iff.mp hlast
  have hfind : findIdxOfChar braceOpen (pre ++ (braceOpen :: mid) ++ suf)
      = some pre.length := by
    rw [List.append_assoc, List.cons_append]
    exact findIdxOfChar_append_cons braceOpen pre (mid ++ suf) hpre
  have hrfind : rfindIdxOfChar braceClose (pre ++ (braceOpen :: mid) ++ suf)
      = some (pre.length + ini.length) := by
    have hshape : pre ++ (braceOpen :: mid) ++ suf = (pre ++ ini) ++ braceClose :: suf := by
      rw [hini]
      simp [List.append_assoc]
    rw [hshape, rfindIdxOfChar_located braceClose (pre ++ ini) suf hsuf]
    simp [List.length_append]
  have hslice :
      ((pre ++ (braceOpen :: mid) ++ suf).drop pre.length).take
        (pre.length + ini.length + 1 - pre.length) = braceOpen :: mid := by
    rw [List.append_assoc, List.drop_left]
    have hlen : (braceOpen :: mid).length = pre.length + ini.length + 1 - pre.length := by
      rw [hini]
      simp only [List.length_append, List.length_cons, List.length_nil]
      omega
    exact List.take_left' hlen
  unfold parse_json_object
  simp only [hfull, hfind, hrfind]
  rw [if_neg (show ¬ pre.length + ini.length < pre.length by omega)]
  rw [hslice, hobj]

/-! ### Claim C1 -/

/-- C1 counterexample: with MCP disabled and retrieval-only mode off, a
ToolCall directive appends only the restricting system turn — no substitute
retrieval runs (no retrieve event, no context/tool-result turn), refuting
the claim that a retrieval with a substitute query is performed and its
result appended in addition to the system turn. -/
theorem c1_counterexample :
    dispatch envDisabled ((AgentState.new 3).append_user "hello")
        (.ToolCall "fetch-weather" (.obj [])) =
      .next ⟨[⟨"user", "hello"⟩, ⟨"system", mcpUnavailableMsg⟩], 1, 3, []⟩ [] := rfl

/-- C1 (amended): when capability access is unavailable (MCP disabled) and
retrieval-only mode is not active, a ToolCall or PromptCall directive is not
performed and no substitute retrieval runs either: the loop appends exactly
one system turn restricting future directives to retrieve/final, increments
the step counter, and performs no outbound call at all. -/
theorem c1_amended_mcp_disabled_system_turn_only (env : Env) (st : AgentState)
    (name : String) (args : Json)
    (hmcp : env.mcpEnabled = false) (hrag : is_rag_only_state st = false) :
    dispatch env st (.ToolCall name args) =
      .next ((st.append_system mcpUnavailableMsg).bump) [] ∧
    dispatch env st (.PromptCall name args) =
      .next ((st.append_system mcpUnavailableMsg).bump) [] := by
  constructor <;> simp [dispatch, hmcp, hrag]

/-- C1 witness: the amended theorem applied to a concrete disabled
environment and a non-RAG-only state. -/
theorem c1_witness :
    envDisabled.mcpEnabled = false ∧
    is_rag_only_state ((AgentState.new 3).append_user "hello") = false ∧
    dispatch envDisabled ((AgentState.new 3).append_user "hello") (.PromptCall "p" .null) =
      .next ((((AgentState.new 3).append_user "hello").append_system mcpUnavailableMsg).bump)
        [] :=
  ⟨rfl, rfl,
    (c1_amended_mcp_disabled_system_turn_only envDisabled ((AgentState.new 3).append_user "hello")
      "p" .null rfl rfl).2⟩

/-! ### Claim C5 -/

/-- C5: the decision parser is not total — on raw text that is not valid
JSON and in which the last closing brace precedes the first opening brace
(here `"} {"`), the Rust slice `raw[start..=end]` has `start > end` and
panics, instead of returning a descriptive parse failure as the contract
requires. -/
theorem c5_parser_panics_on_reversed_braces :
    parse_decision "\x7d \x7b".toList = .panicked := rfl

/-! ### Claim C9 -/

/-- C9 counterexample: an input whose explicit uri field is a whitespace-only
string and whose arguments.uri is a non-empty string does NOT parse to
ResourceRead of the arguments.uri value — the present-but-blank uri field
shadows arguments.uri and the parse fails. -/
theorem c9_counterexample :
    parse_decision
        "\x7b\"action\":\"resource\",\"uri\":\" \",\"arguments\":\x7b\"uri\":\"config://app\"\x7d\x7d".toList
      = .err "resource action requires uri" ∧
    ∀ d : Decision,
      parse_decision
          "\x7b\"action\":\"resource\",\"uri\":\" \",\"arguments\":\x7b\"uri\":\"config://app\"\x7d\x7d".toList
        ≠ .ok d := by
  refine ⟨rfl, fun d h => ?_⟩
  rw [show parse_decision
      "\x7b\"action\":\"resource\",\"uri\":\" \",\"arguments\":\x7b\"uri\":\"config://app\"\x7d\x7d".toList
    = .err "resource action requires uri" from rfl] at h
  exact RustOutcome.noConfusion h

/-- C9 (amended): for action `resource` the uri is resolved by taking the
first PRESENT candidate in priority order — the explicit `uri` field if
present (even when empty or whitespace-only), else `arguments.uri` when it
is a string, else `name` — and then failing when that selection trims to
empty or no candidate is present; in particular a whitespace-only explicit
`uri` field makes the parse fail even when `arguments.uri` is non-empty. -/
theorem c9_amended_resource_uri_first_present (e : DecisionEnvelope)
    (hact : asciiLowerStr (rustTrim e.action) = "resource") :
    (∀ u, e.uri = some u → rustTrimL u.toList = [] →
      decisionFromEnvelope e = .error "resource action requires uri") ∧
    (∀ u, e.uri = some u → rustTrimL u.toList ≠ [] →
      decisionFromEnvelope e = .ok (.ResourceRead u)) ∧
    (∀ u, e.uri = none → (e.arguments.get "uri").bind Json.asStr = some u →
      rustTrimL u.toList ≠ [] →
      decisionFromEnvelope e = .ok (.ResourceRead u)) ∧
    (∀ n, e.uri = none → (e.arguments.get "uri").bind Json.asStr = none →
      e.name = some n → rustTrimL n.toList ≠ [] →
      decisionFromEnvelope e = .ok (.ResourceRead n)) ∧
    (e.uri = none → (e.arguments.get "uri").bind Json.asStr = none → e.name = none →
      decisionFromEnvelope e = .error "resource action requires uri") := by
  refine ⟨fun u hu hemp => ?_, fun u hu hemp => ?_, fun u hu harg hemp => ?_,
    fun n hu harg hn hemp => ?_, fun hu harg hn => ?_⟩
  · have hd : rustTrimL u.data = [] := hemp
    simp [decisionFromEnvelope, hact, hu, Option.orElse, filterNonEmpty, hd]
  · have hd : ¬ rustTrimL u.data = [] := hemp
    simp [decisionFromEnvelope, hact, hu, Option.orElse, filterNonEmpty, hd]
  · have hd : ¬ rustTrimL u.data = [] := hemp
    simp [decisionFromEnvelope, hact, hu, harg, Option.orElse, filterNonEmpty, hd]
  · have hd : ¬ rustTrimL n.data = [] := hemp
    simp [decisionFromEnvelope, hact, hu, harg, hn, Option.orElse, filterNonEmpty, hd]
  · simp [decisionFromEnvelope, hact, hu, harg, hn, Option.orElse, filterNonEmpty]

/-- C9 witness: the amended theorem applied to concrete envelopes exercising
the shadowing case and the happy case. -/
theorem c9_witness :
    decisionFromEnvelope ⟨"resource", none, .obj [("uri", .str "config://app")], none, some " "⟩
      = .error "resource action requires uri" ∧
    decisionFromEnvelope ⟨" Resource ", none, .null, none, some "config://app"⟩
      = .ok (.ResourceRead "config://app") :=
  ⟨(c9_amended_resource_uri_first_present
      ⟨"resource", none, .obj [("uri", .str "config://app")], none, some " "⟩ rfl).1
      " " rfl rfl,
   (c9_amended_resource_uri_first_present
      ⟨" Resource ", none, .null, none, some "config://app"⟩ rfl).2.1
      "config://app" rfl (by decide)⟩

/-! ### Claim C6 -/

/-- C6: with capability access available and retrieval-only mode off, a
failed resource read appends exactly two turns — one tool turn describing
the read failure, then one turn describing the outcome of the automatic
retrieval fallback (a context turn on success, a tool turn on failure) —
never a bare error turn alone; the only outbound calls are the resource
read and the fallback retrieval. -/
theorem c6_resource_read_failure_degrades_to_retrieval (env : Env) (st : AgentState)
    (uri e : String)
    (hmcp : env.mcpEnabled = true) (hrag : is_rag_only_state st = false)
    (hread : env.readResource uri = .error e) :
    ∃ st2 m2,
      dispatch env st (.ResourceRead uri) =
        .next st2 [.resourceInvoke uri, .retrieveCall ((latest_user_query st).getD uri)] ∧
      st2.conversation = st.conversation ++
        [⟨"tool", "Resource read failed for " ++ uri ++ ": " ++ e⟩, m2] ∧
      ((∃ ctx, env.retrieve ((latest_user_query st).getD uri) = .ok ctx ∧
          m2 = ⟨"system", "RAG retrieve fallback (resource read failed) for query: " ++
            (latest_user_query st).getD uri ++ "\n" ++ ctx⟩) ∨
       (∃ rerr, env.retrieve ((latest_user_query st).getD uri) = .error rerr ∧
          m2 = ⟨"tool", "RAG retrieve fallback error (resource read failed): " ++ rerr⟩)) := by
  have hfq : latest_user_query
      (st.append_tool ("Resource read failed for " ++ uri ++ ": " ++ e)) =
      latest_user_query st := latest_user_append_tool st _
  cases hr : env.retrieve ((latest_user_query st).getD uri) with
  | ok ctx =>
    refine ⟨((st.append_tool ("Resource read failed for " ++ uri ++ ": " ++ e)).append_context
        ("RAG retrieve fallback (resource read failed) for query: " ++
          (latest_user_query st).getD uri ++ "\n" ++ ctx)).bump,
      ⟨"system", "RAG retrieve fallback (resource read failed) for query: " ++
        (latest_user_query st).getD uri ++ "\n" ++ ctx⟩, ?_, ?_, Or.inl ⟨ctx, rfl, rfl⟩⟩
    · simp [dispatch, hrag, hmcp, hread, hfq, hr]
    · simp [AgentState.append_tool, AgentState.append_context, AgentState.bump]
  | error rerr =>
    refine ⟨((st.append_tool ("Resource read failed for " ++ uri ++ ": " ++ e)).append_tool
        ("RAG retrieve fallback error (resource read failed): " ++ rerr)).bump,
      ⟨"tool", "RAG retrieve fallback error (resource read failed): " ++ rerr⟩,
      ?_, ?_, Or.inr ⟨rerr, rfl, rfl⟩⟩
    · simp [dispatch, hrag, hmcp, hread, hfq, hr]
    · simp [AgentState.append_tool, AgentState.bump]

/-- C6 witness: the theorem applied to a concrete state and an environment
whose resource reads fail and whose retrieval succeeds. -/
theorem c6_witness :
    envResourceDown.mcpEnabled = true ∧
    is_rag_only_state ((AgentState.new 2).append_user "q0") = false ∧
    envResourceDown.readResource "cfg://x" = .error "denied" ∧
    (∃ st2 m2,
      dispatch envResourceDown ((AgentState.new 2).append_user "q0") (.ResourceRead "cfg://x") =
        .next st2 [.resourceInvoke "cfg://x",
          .retrieveCall ((latest_user_query ((AgentState.new 2).append_user "q0")).getD "cfg://x")] ∧
      st2.conversation = ((AgentState.new 2).append_user "q0").conversation ++
        [⟨"tool", "Resource read failed for " ++ "cfg://x" ++ ": " ++ "denied"⟩, m2] ∧
      ((∃ ctx, envResourceDown.retrieve
            ((latest_user_query ((AgentState.new 2).append_user "q0")).getD "cfg://x") = .ok ctx ∧
          m2 = ⟨"system", "RAG retrieve fallback (resource read failed) for query: " ++
            (latest_user_query ((AgentState.new 2).append_user "q0")).getD "cfg://x" ++
              "\n" ++ ctx⟩) ∨
       (∃ rerr, envResourceDown.retrieve
            ((latest_user_query ((AgentState.new 2).append_user "q0")).getD "cfg://x")
              = .error rerr ∧
          m2 = ⟨"tool", "RAG retrieve fallback error (resource read failed): " ++ rerr⟩))) :=
  ⟨rfl, rfl, rfl,
   c6_resource_read_failure_degrades_to_retrieval envResourceDown
     ((AgentState.new 2).append_user "q0") "cfg://x" "denied" rfl rfl rfl⟩

/-! ### Claim C3 -/

/-- C3 counterexample: prose containing an opening brace before the embedded
directive object makes the extraction slice start at the wrong brace, so the
full text fails to parse while the bare object parses — the claim fails for
arbitrary prose. -/
theorem c3_counterexample :
    parse_decision "a \x7b b \x7b\"action\":\"final\",\"answer\":\"ok\"\x7d".toList
      = .err "Failed to parse JSON decision" ∧
    parse_decision "\x7b\"action\":\"final\",\"answer\":\"ok\"\x7d".toList
      = .ok (.FinalAnswer "ok") ∧
    parse_decision "a \x7b b \x7b\"action\":\"final\",\"answer\":\"ok\"\x7d".toList
      ≠ parse_decision "\x7b\"action\":\"final\",\"answer\":\"ok\"\x7d".toList := by
  refine ⟨rfl, rfl, fun h => ?_⟩
  rw [show parse_decision "a \x7b b \x7b\"action\":\"final\",\"answer\":\"ok\"\x7d".toList
        = .err "Failed to parse JSON decision" from rfl,
      show parse_decision "\x7b\"action\":\"final\",\"answer\":\"ok\"\x7d".toList
        = .ok (.FinalAnswer "ok") from rfl] at h
  exact RustOutcome.noConfusion h

/-- C3 (amended): for raw model output consisting of one valid JSON object
surrounded by prose, parse_decision on the full text agrees with
parse_decision on the bare object provided the prose before the object
contains no opening brace, the prose after it contains no closing brace,
and the full text is not itself valid JSON (e.g. whenever the prose is not
pure whitespace and adds no bracketing). -/
theorem c3_amended_embedded_object_agreement (pre mid suf : List Char) (v : Json)
    (hpre : braceOpen ∉ pre) (hsuf : braceClose ∉ suf)
    (hlast : (braceOpen :: mid).getLast? = some braceClose)
    (hobj : jsonParse (braceOpen :: mid) = some v)
    (hfull : jsonParse (pre ++ (braceOpen :: mid) ++ suf) = none) :
    parse_decision (pre ++ (braceOpen :: mid) ++ suf) = parse_decision (braceOpen :: mid) := by
  have h1 := parse_json_object_embedded pre mid suf v hpre hsuf hlast hobj hfull
  have h2 : parse_json_object (braceOpen :: mid) = .ok v := by
    unfold parse_json_object
    rw [hobj]
  unfold parse_decision
  rw [h1, h2]

/-- C3 witness: the amended theorem applied to a concrete prose-wrapped
directive. -/
theorem c3_witness :
    braceOpen ∉ "note ".toList ∧
    braceClose ∉ " end".toList ∧
    (braceOpen :: "\"action\":\"final\",\"answer\":\"ok\"\x7d".toList).getLast?
      = some braceClose ∧
    jsonParse (braceOpen :: "\"action\":\"final\",\"answer\":\"ok\"\x7d".toList)
      = some (.obj [("action", .str "final"), ("answer", .str "ok")]) ∧
    jsonParse ("note ".toList ++ (braceOpen :: "\"action\":\"final\",\"answer\":\"ok\"\x7d".toList)
      ++ " end".toList) = none ∧
    parse_decision ("note ".toList ++
        (braceOpen :: "\"action\":\"final\",\"answer\":\"ok\"\x7d".toList) ++ " end".toList)
      = parse_decision (braceOpen :: "\"action\":\"final\",\"answer\":\"ok\"\x7d".toList) :=
  ⟨by decide, by decide, rfl, rfl, rfl,
   c3_amended_embedded_object_agreement "note ".toList
     "\"action\":\"final\",\"answer\":\"ok\"\x7d".toList " end".toList
     (.obj [("action", .str "final"), ("answer", .str "ok")])
     (by decide) (by decide) rfl rfl rfl⟩

/-! ### Claim C2 -/

/-- C2 counterexample: a failure of the per-step structured completion call
aborts the session immediately — the run fails with the collaborator's own
error string while the step budget (3) is untouched and no forced-final
call was attempted (the trace holds a single completion call), refuting the
claim that only the two forced-final cases produce a fatal failure and that
the failure string always names the step limit. -/
theorem c2_counterexample :
    run_agent envGenDown cfg1 ((AgentState.new 3).append_user "q") =
      ⟨.failed "upstream down", (AgentState.new 3).append_user "q", [.completionCall]⟩ := rfl

/-- C2 (amended): a session ends with a fatal failure string in exactly
these cases — a per-step structured completion call fails, whose error
propagates verbatim, or the step budget is exhausted and the forced-final
completion fails or trims to empty, in which case the failure string names
both the step limit and the nested failure reason; no retrieval, tool,
prompt, or resource collaborator failure aborts the session. -/
theorem c2_amended_failure_characterization (env : Env) (cfg : Config) (st : AgentState)
    (s : String) (h : (run_agent env cfg st).result = .failed s) :
    (∃ i, env.genJson i = .error s) ∨
    (∃ stx e, force_final_answer env cfg stx = .error e ∧
      s = "Max steps exceeded (limit: " ++ toString st.max_steps ++
        ") before final answer; fallback generation failed: " ++ e) := by
  rcases run_fuel_failed (st.max_steps - st.current_step) env cfg 0 st s h with
    ⟨i, _, hg⟩ | hr
  · exact Or.inl ⟨i, hg⟩
  · exact Or.inr hr

/-- C2 witness: a concrete exhausted run whose forced-final call fails,
together with the characterization the amended theorem yields for it. -/
theorem c2_witness :
    (run_agent envAllDown cfg1 ((AgentState.new 1).append_user "q")).result =
      .failed "Max steps exceeded (limit: 1) before final answer; fallback generation failed: llm down" ∧
    ((∃ i, envAllDown.genJson i =
        .error "Max steps exceeded (limit: 1) before final answer; fallback generation failed: llm down") ∨
     (∃ stx e, force_final_answer envAllDown cfg1 stx = .error e ∧
       "Max steps exceeded (limit: 1) before final answer; fallback generation failed: llm down" =
         "Max steps exceeded (limit: " ++
           toString ((AgentState.new 1).append_user "q").max_steps ++
           ") before final answer; fallback generation failed: " ++ e)) :=
  ⟨rfl, c2_amended_failure_characterization envAllDown cfg1 ((AgentState.new 1).append_user "q")
    "Max steps exceeded (limit: 1) before final answer; fallback generation failed: llm down" rfl⟩

/-! ### Claim C4 -/

/-- C4 counterexample: a retrieval failure turn ("RAG retrieve error: boom")
is recorded in the context log and becomes the context text fed to the
forced-final prompt, refuting the claim that turns describing collaborator
failures are never added to the context log. -/
theorem c4_counterexample :
    (run_agent envRetrieveBoom cfg1 ((AgentState.new 1).append_user "q")).state.context_log
      = ["RAG retrieve error: boom"] ∧
    (run_agent envRetrieveBoom cfg1 ((AgentState.new 1).append_user "q")).state.context_text
      = "RAG retrieve error: boom" ∧
    (run_agent envRetrieveBoom cfg1 ((AgentState.new 1).append_user "q")).result
      = .answered "ans" :=
  ⟨rfl, rfl, rfl⟩

/-- C4 (amended): every entry of the context log is the content of a
recorded tool or system conversation turn; the log accumulates both
successful retrieval/tool results and failure-describing tool turns (the
tool-result channel always writes to the log), so transient failure chatter
is included rather than excluded. -/
theorem c4_amended_log_entries_from_recorded_turns (env : Env) (cfg : Config)
    (st : AgentState) (h : logAbsorbed st) :
    logAbsorbed (run_agent env cfg st).state :=
  run_fuel_absorbed (st.max_steps - st.current_step) env cfg 0 st h

/-- C4 witness: the amended theorem applied to a concrete run from a fresh
state. -/
theorem c4_witness :
    logAbsorbed ((AgentState.new 1).append_user "q") ∧
    logAbsorbed (run_agent envRetrieveBoom cfg1 ((AgentState.new 1).append_user "q")).state :=
  ⟨fun _ ht => absurd ht (by simp [AgentState.new, AgentState.append_user]),
   c4_amended_log_entries_from_recorded_turns envRetrieveBoom cfg1
     ((AgentState.new 1).append_user "q")
     (fun _ ht => absurd ht (by simp [AgentState.new, AgentState.append_user]))⟩

/-! ### Claim C7 -/

theorem isPrefixOf_of_append_right (p q l : List Char)
    (h : (p ++ q).isPrefixOf l = true) : p.isPrefixOf l = true := by
  induction p generalizing l with
  | nil => simp [List.isPrefixOf]
  | cons a t ih =>
    cases l with
    | nil => simp [List.isPrefixOf] at h
    | cons b l2 =>
      simp only [List.cons_append, List.isPrefixOf, Bool.and_eq_true] at h ⊢
      exact ⟨h.1, ih l2 h.2⟩

theorem subIdx_mono (p q : List Char) :
    ∀ hay, (subIdx hay (p ++ q)).isSome = true → (subIdx hay p).isSome = true := by
  intro hay
  induction hay with
  | nil =>
    intro h
    simp only [subIdx] at h ⊢
    split at h
    · next hpre => rw [if_pos (isPrefixOf_of_append_right p q [] hpre)]; rfl
    · simp at h
  | cons a t ih =>
    intro h
    simp only [subIdx] at h ⊢
    split at h
    · next hpre => rw [if_pos (isPrefixOf_of_append_right p q _ hpre)]; rfl
    · next hpre =>
      by_cases hp2 : p.isPrefixOf (a :: t) = true
      · rw [if_pos hp2]; rfl
      · rw [if_neg hp2]
        have h2 : (subIdx t (p ++ q)).isSome = true := by simpa using h
        have h3 := ih h2
        simpa using h3

theorem rag_trigger_implies (question : String)
    (h : containsSub (asciiLowerStr question) "use rag only" = true) :
    is_rag_only_query question = true := by
  have hsplit : ("use rag only".toList : List Char) = "use rag".toList ++ " only".toList := by
    decide
  unfold containsSub at h
  rw [hsplit] at h
  have h2 := subIdx_mono "use rag".toList " only".toList (asciiLowerStr question).toList h
  have h3 : containsSub (asciiLowerStr question) "use rag" = true := h2
  have hexp : is_rag_only_query question =
      (containsSub (asciiLowerStr question) "use rag" ||
       containsSub (asciiLowerStr question) "rag only" ||
       containsSub (asciiLowerStr question) "only rag" ||
       containsSub (asciiLowerStr question) "do not use mcp" ||
       containsSub (asciiLowerStr question) "don't use mcp" ||
       containsSub (asciiLowerStr question) "without mcp") := rfl
  rw [hexp, h3]
  rfl

/-- C7: in a session whose originating question contains "use rag only"
(case-insensitively), every ToolCall, PromptCall, or ResourceRead directive
is converted into a retrieval whose query is the most recent user turn —
the original question — regardless of the directive's own name, arguments,
or uri; and across the whole session the external capability client is
never invoked. -/
theorem c7_rag_only_conversion :
    (∀ (env : Env) (st : AgentState) (q name uri : String) (args : Json),
      latest_user_query st = some q → is_rag_only_query q = true →
      dispatch env st (.ToolCall name args) = ragOnlyFallback env st q ∧
      dispatch env st (.PromptCall name args) = ragOnlyFallback env st q ∧
      dispatch env st (.ResourceRead uri) = ragOnlyFallback env st q) ∧
    (∀ (env : Env) (cfg : Config) (caps : McpCapabilities) (question : String),
      containsSub (asciiLowerStr question) "use rag only" = true →
      ∀ ev ∈ (answer_query_hybrid env cfg caps question).events,
        ev.isCapabilityCall = false) := by
  constructor
  · intro env st q name uri args hlat hq
    have hrag : is_rag_only_state st = true := by simp [is_rag_only_state, hlat, hq]
    refine ⟨?_, ?_, ?_⟩ <;> simp [dispatch, hrag, hlat]
  · intro env cfg caps question hq ev hev
    have hrag := rag_trigger_implies question hq
    unfold answer_query_hybrid at hev
    rw [hrag] at hev
    exact run_fuel_noncap _ env cfg 0 _
      ⟨question, latest_user_append_user _ question, hrag⟩ ev hev

/-- C7 witness: the theorem applied to a concrete RAG-only session state and
a concrete whole-session run. -/
theorem c7_witness :
    latest_user_query ((AgentState.new 2).append_user "use rag only please")
      = some "use rag only please" ∧
    is_rag_only_query "use rag only please" = true ∧
    dispatch envDisabled ((AgentState.new 2).append_user "use rag only please")
        (.ToolCall "fetch-weather" (.obj [("city", .str "Oslo")])) =
      ragOnlyFallback envDisabled ((AgentState.new 2).append_user "use rag only please")
        "use rag only please" ∧
    containsSub (asciiLowerStr "Use RAG only") "use rag only" = true ∧
    (∀ ev ∈ (answer_query_hybrid envDisabled cfg1 caps0 "Use RAG only").events,
      ev.isCapabilityCall = false) :=
  ⟨rfl, rfl,
   (c7_rag_only_conversion.1 envDisabled ((AgentState.new 2).append_user "use rag only please")
     "use rag only please" "fetch-weather" "u" (.obj [("city", .str "Oslo")]) rfl rfl).1,
   by decide,
   c7_rag_only_conversion.2 envDisabled cfg1 caps0 "Use RAG only" (by decide)⟩

/-! ### Claim C8 -/

/-- C8: the loop performs at most `max_steps - current_step` (hence at most
`max_steps = N`) parse/dispatch iterations before invoking the forced-final
procedure, and a FinalAnswer directive arriving on any iteration whose
index is still below the budget — in particular on iteration N — terminates
as a normal Answered success with the state unchanged (step_count is not
incremented for it), not as an exhaustion failure. -/
theorem c8_step_budget_and_final_on_last_iteration :
    (∀ (env : Env) (cfg : Config) (st : AgentState),
      completionCount (run_agent env cfg st).events ≤ st.max_steps - st.current_step) ∧
    (∀ (env : Env) (cfg : Config) (st : AgentState) (raw ans : String),
      st.current_step < st.max_steps → env.genJson 0 = .ok raw →
      parse_decision raw.toList = .ok (.FinalAnswer ans) →
      run_agent env cfg st = ⟨.answered ans, st, [.completionCall]⟩) := by
  constructor
  · intro env cfg st
    exact run_fuel_completion_count (st.max_steps - st.current_step) env cfg 0 st
  · intro env cfg st raw ans hlt hraw hparse
    obtain ⟨k, hk⟩ : ∃ k, st.max_steps - st.current_step = k + 1 :=
      ⟨st.max_steps - st.current_step - 1, by omega⟩
    have hparse2 : parse_decision raw.data = .ok (.FinalAnswer ans) := hparse
    unfold run_agent
    rw [hk]
    simp [run_agent_fuel, hraw, hparse, hparse2, hlt, dispatch]

/-- C8 witness: a FinalAnswer directive on the last permitted iteration of a
budget-1 session yields a normal answer with the state untouched. -/
theorem c8_witness :
    ((AgentState.new 1).append_user "q").current_step <
      ((AgentState.new 1).append_user "q").max_steps ∧
    envFinal.genJson 0 = .ok "\x7b\"action\":\"final\",\"answer\":\"done\"\x7d" ∧
    parse_decision "\x7b\"action\":\"final\",\"answer\":\"done\"\x7d".toList
      = .ok (.FinalAnswer "done") ∧
    run_agent envFinal cfg1 ((AgentState.new 1).append_user "q") =
      ⟨.answered "done", (AgentState.new 1).append_user "q", [.completionCall]⟩ :=
  ⟨by decide, rfl, rfl,
   c8_step_budget_and_final_on_last_iteration.2 envFinal cfg1
     ((AgentState.new 1).append_user "q")
     "\x7b\"action\":\"final\",\"answer\":\"done\"\x7d" "done" (by decide) rfl rfl⟩

/-! ### Claim C10 -/

/-- C10: for the recognized tool name (`fetch-weather`, case-insensitive),
whenever any extraction strategy (arguments-based or latest-user-utterance
scan) yields a city candidate, the normalizer replaces the arguments
wholesale with the single-field object containing only that city, discarding
every other key; for every other tool name, and whenever no candidate is
found, the original arguments value is returned unchanged. -/
theorem c10_normalizer_frame :
    (∀ (name : String) (args : Json) (st : AgentState),
      eqIgnoreAsciiCase name "fetch-weather" = false →
      normalize_tool_args name args st = args) ∧
    (∀ (name : String) (args : Json) (st : AgentState) (city : String),
      eqIgnoreAsciiCase name "fetch-weather" = true →
      ((extract_city_from_args args).orElse
        fun _ => (latest_user_query st).bind fun q => infer_city_from_text q) = some city →
      normalize_tool_args name args st = .obj [("city", .str city)]) ∧
    (∀ (name : String) (args : Json) (st : AgentState),
      eqIgnoreAsciiCase name "fetch-weather" = true →
      ((extract_city_from_args args).orElse
        fun _ => (latest_user_query st).bind fun q => infer_city_from_text q) = none →
      normalize_tool_args name args st = args) := by
  refine ⟨fun name args st h => ?_, fun name args st city h hc => ?_,
    fun name args st h hc => ?_⟩
  · simp [normalize_tool_args, h]
  · simp [normalize_tool_args, h, hc]
  · simp [normalize_tool_args, h, hc]

/-- C10 witness: the three cases at concrete inputs — a foreign tool name,
a replaced argument object, and a no-candidate pass-through. -/
theorem c10_witness :
    normalize_tool_args "other" (.str "x") (AgentState.new 3) = .str "x" ∧
    normalize_tool_args "FETCH-Weather" (.obj [("location", .str " Paris ")])
      (AgentState.new 3) = .obj [("city", .str "Paris")] ∧
    normalize_tool_args "fetch-weather" (.obj [("k", .bool true)])
      ((AgentState.new 3).append_user "hello") = .obj [("k", .bool true)] :=
  ⟨c10_normalizer_frame.1 "other" (.str "x") (AgentState.new 3) rfl,
   c10_normalizer_frame.2.1 "FETCH-Weather" (.obj [("location", .str " Paris ")])
     (AgentState.new 3) "Paris" rfl rfl,
   c10_normalizer_frame.2.2 "fetch-weather" (.obj [("k", .bool true)])
     ((AgentState.new 3).append_user "hello") rfl rfl⟩

end Aicli
